import Mathlib

/-!
Verification development for the gwe compiler (https://github.com/eeue56/gwe):
a small source-to-WebAssembly compiler written in Rust. This file gives a
shallow embedding in Lean 4 of the tokenizer (src/tokenizer.rs), the
expression parser with type resolution (src/expressions.rs), the top-level
block parser and driver (src/blocks.rs, src/parser.rs) and the WebAssembly
text emitter (src/generators/web_assembly.rs), together with theorems about
the embedded definitions.

Conventions used by the embedding:
* Rust `Vec<T>` / slices become `List T`; iterators that are consumed become
  explicit recursion over lists, with functions returning the unconsumed
  remainder where the Rust code keeps using the shared iterator.
* Rust `Result<T, String>` becomes `Except String T`.
* Rust `i32` values (source positions, memory offsets, sizes) become `Int`;
  none of the embedded code paths can overflow 32 bits on the inputs the
  theorems use, so wrap-around is not modelled.
* `char::is_alphanumeric` / `char::is_numeric` are modelled with the ASCII
  classifiers `Char.isAlphanum` / `Char.isDigit`; every concrete program in
  this file is ASCII, where the two notions agree.
* The recursive expression parser is embedded with an explicit structural
  fuel parameter so that it is a total, kernel-computable function; the
  public wrapper `parse_expression` supplies fuel `tokens.length + 1`, which
  is sufficient because every recursive call of the Rust function strictly
  shrinks the token slice being parsed.
-/

namespace Gwe

/-- Source position carried by every token (tokenizer.rs, `TokenInfo`). -/
structure TokenInfo where
  line : Int
  index : Int
deriving DecidableEq, Repr

/-- Token kinds of the gwe language (tokenizer.rs, `Token`). -/
inductive Token where
  | LeftParen
  | RightParen
  | Identifier (body : String)
  | Number (body : String)
  | Fn
  | Memory
  | Colon
  | LeftBracket
  | RightBracket
  | Comma
  | Return
  | Semicolon
  | Local
  | Global
  | Assign
  | Text (body : String)
  | Plus
  | Export
  | Import
  | Dot
  | If
  | Else
  | True
  | False
  | For
deriving DecidableEq, Repr

/-- A token together with its source position (tokenizer.rs, `FullyQualifiedToken`). -/
structure FullyQualifiedToken where
  token : Token
  info : TokenInfo
deriving DecidableEq, Repr

/-- The `Display` implementation for `Token` (tokenizer.rs, `impl Display for Token`).
Note the faithful quirk: the source renders both `LeftParen` and `RightParen`
as `"("`. -/
def token_display : Token → String
  | .LeftParen => "("
  | .RightParen => "("
  | .Identifier body => body
  | .Number body => body
  | .Fn => "fn"
  | .Memory => "memory"
  | .Colon => ":"
  | .LeftBracket => "\x7b"
  | .RightBracket => "\x7d"
  | .Comma => ","
  | .Return => "return"
  | .Semicolon => ";"
  | .Local => "local"
  | .Global => "global"
  | .Assign => "="
  | .Text body => body
  | .Plus => "+"
  | .Export => "export"
  | .Import => "import"
  | .Dot => "."
  | .If => "if"
  | .Else => "else"
  | .True => "true"
  | .False => "false"
  | .For => "for"

/-- Renders the position-annotated error string of `error_with_info`
(tokenizer.rs); the Rust function wraps it in `Err`, which call sites here do
with `Except.error`. -/
def error_with_info (error : String) (fqt : FullyQualifiedToken) : String :=
  error ++ " at line " ++ toString (fqt.info.line + 1) ++ ", index " ++ toString fqt.info.index

/-- Character class for identifier continuation (tokenizer.rs, `is_identifier_char`). -/
def is_identifier_char (c : Char) : Bool :=
  c.isAlphanum || c == '_'

/-- Number-shaped buffers: all characters are digits or dots
(tokenizer.rs, `is_number_string`). Note `[] → true`, as in the Rust `all`. -/
def is_number_string (s : List Char) : Bool :=
  s.all fun c => c.isDigit || c == '.'

/-- Classifies a flushed identifier buffer into a keyword, number or
identifier token (tokenizer.rs, `possibly_push_current_buffer`). -/
def classify_buffer (buf : List Char) : Token :=
  let chars := String.mk buf
  if chars == "fn" then .Fn
  else if chars == "memory" then .Memory
  else if chars == "return" then .Return
  else if chars == "local" then .Local
  else if chars == "global" then .Global
  else if chars == "export" then .Export
  else if chars == "import" then .Import
  else if chars == "if" then .If
  else if chars == "else" then .Else
  else if chars == "true" then .True
  else if chars == "false" then .False
  else if chars == "for" then .For
  else if is_number_string buf then .Number chars
  else .Identifier chars

/-- Emits the pending buffer as a token, if non-empty
(tokenizer.rs, `possibly_push_current_buffer`). -/
def flush_buffer (buf : List Char) (line index : Int) : List FullyQualifiedToken :=
  if buf.isEmpty then []
  else [⟨classify_buffer buf, ⟨line, index⟩⟩]

/-- The character-by-character tokenizer state machine (tokenizer.rs,
`tokenize`); `buf` is `current_buffer`, `in_quotes` the quote flag, and
`line`/`index` the running position, updated after each character exactly as
in the source. -/
def tokenize_go : List Char → List Char → Bool → Int → Int → List FullyQualifiedToken
  | [], buf, _, line, index => flush_buffer buf line index
  | c :: cs, buf, in_quotes, line, index =>
    let lineN : Int := if c == '\n' then line + 1 else line
    let indexN : Int := if c == '\n' then 0 else index + 1
    if c == '"' then
      if in_quotes then
        ⟨.Text (String.mk buf), ⟨line, index⟩⟩ :: tokenize_go cs [] false lineN indexN
      else
        flush_buffer buf line index ++ tokenize_go cs [] true lineN indexN
    else if in_quotes then
      tokenize_go cs (buf ++ [c]) true lineN indexN
    else if c == '(' then
      flush_buffer buf line index ++ ⟨.LeftParen, ⟨line, index⟩⟩ :: tokenize_go cs [] false lineN indexN
    else if c == ')' then
      flush_buffer buf line index ++ ⟨.RightParen, ⟨line, index⟩⟩ :: tokenize_go cs [] false lineN indexN
    else if c == ':' then
      flush_buffer buf line index ++ ⟨.Colon, ⟨line, index⟩⟩ :: tokenize_go cs [] false lineN indexN
    else if c == ' ' || c == '\n' then
      flush_buffer buf line index ++ tokenize_go cs [] false lineN indexN
    else if c == '\x7b' then
      flush_buffer buf line index ++ ⟨.LeftBracket, ⟨line, index⟩⟩ :: tokenize_go cs [] false lineN indexN
    else if c == '\x7d' then
      flush_buffer buf line index ++ ⟨.RightBracket, ⟨line, index⟩⟩ :: tokenize_go cs [] false lineN indexN
    else if c == ',' then
      flush_buffer buf line index ++ ⟨.Comma, ⟨line, index⟩⟩ :: tokenize_go cs [] false lineN indexN
    else if c == ';' then
      flush_buffer buf line index ++ ⟨.Semicolon, ⟨line, index⟩⟩ :: tokenize_go cs [] false lineN indexN
    else if c == '=' then
      flush_buffer buf line index ++ ⟨.Assign, ⟨line, index⟩⟩ :: tokenize_go cs [] false lineN indexN
    else if c == '+' then
      flush_buffer buf line index ++ ⟨.Plus, ⟨line, index⟩⟩ :: tokenize_go cs [] false lineN indexN
    else if c == '.' then
      if is_number_string buf then
        tokenize_go cs (buf ++ [c]) false lineN indexN
      else
        flush_buffer buf line index ++ ⟨.Dot, ⟨line, index⟩⟩ :: tokenize_go cs [] false lineN indexN
    else if is_identifier_char c then
      tokenize_go cs (buf ++ [c]) false lineN indexN
    else
      tokenize_go cs buf false lineN indexN

/-- Tokenizes a source string (tokenizer.rs, `tokenize`). -/
def tokenize (body : String) : List FullyQualifiedToken :=
  tokenize_go body.toList [] false 0 0

/-- State machine core of `split_by_semicolon_within_brackets`
(tokenizer.rs): `cur` is `current_group`, the `Nat` is `bracket_depth`.
At depth 0 a `{` raises the depth and a `;` ends the group; at positive
depth only `}` lowers the depth — in particular a nested `{` does NOT raise
it further, faithful to the source. -/
def split_by_semicolon_go :
    List FullyQualifiedToken → List FullyQualifiedToken → Nat → List (List FullyQualifiedToken)
  | [], cur, _ => if cur.isEmpty then [] else [cur]
  | fqt :: rest, cur, 0 =>
    match fqt.token with
    | .LeftBracket => split_by_semicolon_go rest (cur ++ [fqt]) 1
    | .Semicolon => cur :: split_by_semicolon_go rest [] 0
    | _ => split_by_semicolon_go rest (cur ++ [fqt]) 0
  | fqt :: rest, cur, depth + 1 =>
    match fqt.token with
    | .RightBracket => split_by_semicolon_go rest (cur ++ [fqt]) depth
    | _ => split_by_semicolon_go rest (cur ++ [fqt]) (depth + 1)

/-- Splits a token stream into semicolon-delimited groups with (one level of)
bracket awareness (tokenizer.rs, `split_by_semicolon_within_brackets`). -/
def split_by_semicolon_within_brackets
    (tokens : List FullyQualifiedToken) : List (List FullyQualifiedToken) :=
  split_by_semicolon_go tokens [] 0

/-- The expression AST (expressions.rs, `Expression`). -/
inductive Expression where
  | Number (value : String) (type_name : String)
  | Variable (body : String) (type_name : String)
  | Return (expression : Expression)
  | LocalAssign (name : String) (type_name : String) (expression : Expression)
  | GlobalAssign (name : String) (type_name : String) (expression : Expression)
  | Addition (left : Expression) (right : Expression)
  | String (body : String)
  | FunctionCall (name : String) (args : List Expression)
  | MemoryReference (offset : Int) (length : Int)
  | IfStatement (predicate : Expression) (success : Expression) (fail : Expression)
  | Boolean (value : Bool)
  | ForStatement (initial_value : Expression) (incrementor : Expression)
      (break_condition : Expression) (body : List Expression)

/-- Function parameter (blocks.rs, `Param`). -/
structure Param where
  name : String
  type_name : String

/-- The closure applied through `Expression::map` at the `local` assignment
and at the `for` condition/incrementor sites (expressions.rs): a bare
`Number` literal has its `type_name` replaced, every other expression is
kept unchanged. -/
def retype_number (e : Expression) (type_name : String) : Expression :=
  match e with
  | .Number value _ => .Number value type_name
  | _ => e

/-- Collects the tokens strictly after the first `start` token and before the
following first `end` token (expressions.rs, `between_next`): collection
phase, entered once `start` has been seen. -/
def collect_until (ts : List FullyQualifiedToken) (endTok : Token) : Option (List FullyQualifiedToken) :=
  match ts with
  | [] => none
  | fqt :: rest =>
    if fqt.token == endTok then some []
    else (collect_until rest endTok).map (fqt :: ·)

/-- Window extraction between the first `start` and the next `end`
(expressions.rs, `between_next`). -/
def between_next (ts : List FullyQualifiedToken) (startTok endTok : Token) : Option (List FullyQualifiedToken) :=
  match ts with
  | [] => none
  | fqt :: rest =>
    if fqt.token == startTok then collect_until rest endTok
    else between_next rest startTok endTok

/-- Core loop of `between_next_next` (expressions.rs): `seen` counts `start`
occurrences; tokens are collected only while `seen > 1`, a `start` token
always bumps the counter (and is never collected), and the first `end` seen
with `seen > 1` closes the window. -/
def between_next_next_go (ts : List FullyQualifiedToken) (startTok endTok : Token) (seen : Nat) :
    Option (List FullyQualifiedToken) :=
  match ts with
  | [] => none
  | fqt :: rest =>
    if fqt.token == startTok then between_next_next_go rest startTok endTok (seen + 1)
    else if seen > 1 then
      if fqt.token == endTok then some []
      else (between_next_next_go rest startTok endTok seen).map (fqt :: ·)
    else between_next_next_go rest startTok endTok seen

/-- Window extraction after the second `start` (expressions.rs, `between_next_next`). -/
def between_next_next (ts : List FullyQualifiedToken) (startTok endTok : Token) : Option (List FullyQualifiedToken) :=
  between_next_next_go ts startTok endTok 0

/-- First loop of `find_type` (expressions.rs): first parameter whose name
matches, in list order. -/
def find_param_type (variable_name : String) : List Param → Option String
  | [] => none
  | p :: rest =>
    if p.name == variable_name then some p.type_name
    else find_param_type variable_name rest

/-- Second loop of `find_type` (expressions.rs): first previously parsed
`LocalAssign` whose name matches, in list order. -/
def find_local_type (variable_name : String) : List Expression → Option String
  | [] => none
  | .LocalAssign name type_name _ :: rest =>
    if name == variable_name then some type_name
    else find_local_type variable_name rest
  | _ :: rest => find_local_type variable_name rest

/-- The type resolver (expressions.rs, `find_type`): parameters are searched
first, then prior `LocalAssign` statements, otherwise an error. -/
def find_type (variable_name : String) (previous_expressions : List Expression)
    (local_params : List Param) : Except String String :=
  match find_param_type variable_name local_params with
  | some type_name => .ok type_name
  | none =>
    match find_local_type variable_name previous_expressions with
    | some type_name => .ok type_name
    | none => .error ("Couldn't find type for variable " ++ variable_name)

/-- The tokens before the first `RightParen`, or `none` if there is no
`RightParen`; this is how far `parse_params` (expressions.rs) consumes the
iterator before breaking out of its loop. -/
def take_until_right_paren : List FullyQualifiedToken → Option (List FullyQualifiedToken)
  | [] => none
  | fqt :: rest =>
    if fqt.token == Token.RightParen then some []
    else (take_until_right_paren rest).map (fqt :: ·)

/-- Splits an argument token list at every `Comma`, keeping empty chunks;
these are the successive values of `tokens_for_current_expression` in
`parse_params` (expressions.rs). -/
def split_on_comma : List FullyQualifiedToken → List (List FullyQualifiedToken)
  | [] => [[]]
  | fqt :: rest =>
    if fqt.token == Token.Comma then [] :: split_on_comma rest
    else
      match split_on_comma rest with
      | g :: gs => (fqt :: g) :: gs
      | [] => [[fqt]]

mutual

/-- The recursive-descent expression parser (expressions.rs,
`parse_expression`), indexed by structural fuel. The Rust `while let` loop
body only ever continues on a `RightBracket` token; that continue is modelled
as a recursive call on the remainder, which is behaviourally identical
because a `RightBracket` is neither `Plus` nor `Assign`, so the re-run
addition/assignment pre-scan gives the same answer. The `try_to_match`
helper (expressions.rs) is inlined at its two call sites, keeping its
messages: a mismatch always reports the expected token as `:` (the message
is hardcoded in the source), while exhaustion reports the actual expected
token. -/
def parse_expression_go :
    Nat → List FullyQualifiedToken → List Expression → List Param → Except String Expression
  | 0, _, _, _ => .error "Internal: recursion fuel exhausted"
  | fuel + 1, tokens, previous_expressions, local_params =>
    if (tokens.any fun fqt => fqt.token == Token.Plus)
        && !(tokens.any fun fqt => fqt.token == Token.Assign) then
      match parse_expression_go fuel
          (tokens.takeWhile fun fqt => !(fqt.token == Token.Plus))
          previous_expressions local_params with
      | .error e => .error e
      | .ok left =>
        match parse_expression_go fuel
            ((tokens.dropWhile fun fqt => !(fqt.token == Token.Plus)).tail)
            previous_expressions local_params with
        | .error e => .error e
        | .ok right => .ok (.Addition left right)
    else
      match tokens with
      | [] => .error "Failed parsing expression, ran out of tokens"
      | fqt :: rest =>
        match fqt.token with
        | .Return =>
          (parse_expression_go fuel rest previous_expressions local_params).map
            fun exp => .Return exp
        | .Local =>
          match rest with
          | [] => .error "Failed parsing expression, was expecting an identifier token for the variable name"
          | nameTok :: r2 =>
            match nameTok.token with
            | .Identifier name =>
              match r2 with
              | [] => .error "Expected : but got nothing"
              | colonTok :: r3 =>
                if colonTok.token == Token.Colon then
                  match r3 with
                  | [] => .error "Failed parsing expression, was expecting an identifier token for the type name"
                  | typeTok :: r4 =>
                    match typeTok.token with
                    | .Identifier type_name =>
                      match r4 with
                      | [] => .error "Expected = but got nothing"
                      | assignTok :: r5 =>
                        if assignTok.token == Token.Assign then
                          (parse_expression_go fuel r5 previous_expressions local_params).map
                            fun exp => .LocalAssign name type_name (retype_number exp type_name)
                        else .error (error_with_info ("Expected : but got " ++ token_display assignTok.token) assignTok)
                    | t => .error (error_with_info ("Failed parsing expression, got unexpected token " ++ token_display t) typeTok)
                else .error (error_with_info ("Expected : but got " ++ token_display colonTok.token) colonTok)
            | t => .error ("Failed parsing expression, got unexpected token " ++ token_display t)
        | .Global =>
          match rest with
          | [] => .error "Failed parsing expression, was expecting an identifier token for the variable name"
          | nameTok :: r2 =>
            match nameTok.token with
            | .Identifier name =>
              match r2 with
              | [] => .error "Expected : but got nothing"
              | colonTok :: r3 =>
                if colonTok.token == Token.Colon then
                  match r3 with
                  | [] => .error "Failed parsing expression, was expecting an identifier token for the type name"
                  | typeTok :: r4 =>
                    match typeTok.token with
                    | .Identifier type_name =>
                      match r4 with
                      | [] => .error "Expected = but got nothing"
                      | assignTok :: r5 =>
                        if assignTok.token == Token.Assign then
                          (parse_expression_go fuel r5 previous_expressions local_params).map
                            fun exp => .GlobalAssign name type_name exp
                        else .error (error_with_info ("Expected : but got " ++ token_display assignTok.token) assignTok)
                    | t => .error ("Failed parsing expression, got unexpected token " ++ token_display t)
                else .error (error_with_info ("Expected : but got " ++ token_display colonTok.token) colonTok)
            | t => .error (error_with_info ("Failed parsing expression, got unexpected token " ++ token_display t) nameTok)
        | .Identifier body =>
          match rest with
          | [] =>
            (find_type body previous_expressions local_params).map
              fun type_name => .Variable body type_name
          | fqt2 :: rest2 =>
            match fqt2.token with
            | .LeftParen =>
              match take_until_right_paren rest2 with
              | none => .error "Failed parsing params"
              | some before =>
                match parse_params_chunks fuel (split_on_comma before) previous_expressions local_params with
                | .error e => .error e
                | .ok args => .ok (.FunctionCall body args)
            | t => .error (error_with_info ("Unexpected token " ++ token_display t) fqt2)
        | .RightBracket => parse_expression_go fuel rest previous_expressions local_params
        | .Text body => .ok (.String body)
        | .Number body => .ok (.Number body "f32")
        | .If =>
          match between_next rest Token.LeftParen Token.RightParen with
          | none => .error "Couldn't find predicate tokens"
          | some predicate_tokens =>
            match parse_expression_go fuel predicate_tokens previous_expressions local_params with
            | .error e => .error e
            | .ok predicate =>
              match between_next rest Token.LeftBracket Token.RightBracket with
              | none => .error "Couldn't find success tokens"
              | some success_tokens =>
                match parse_expression_go fuel success_tokens previous_expressions local_params with
                | .error e => .error e
                | .ok success =>
                  match between_next_next rest Token.LeftBracket Token.RightBracket with
                  | none => .error "Couldn't find fail tokens"
                  | some fail_tokens =>
                    match parse_expression_go fuel fail_tokens previous_expressions local_params with
                    | .error e => .error e
                    | .ok fail => .ok (.IfStatement predicate success fail)
        | .True => .ok (.Boolean true)
        | .False => .ok (.Boolean false)
        | .For =>
          match between_next rest Token.LeftParen Token.Comma with
          | none => .error "Couldn't find initializer tokens"
          | some initializer_tokens =>
            match parse_expression_go fuel initializer_tokens previous_expressions local_params with
            | .error e => .error e
            | .ok initializer =>
              let previous_expression_with_initializer := previous_expressions ++ [initializer]
              match between_next rest Token.Comma Token.Comma with
              | none => .error "Couldn't find conditional tokens"
              | some conditional_tokens =>
                match parse_expression_go fuel conditional_tokens previous_expression_with_initializer local_params with
                | .error e => .error e
                | .ok cond0 =>
                  let conditional := retype_number cond0 "i32"
                  match between_next_next rest Token.Comma Token.RightParen with
                  | none => .error "Couldn't find incrementor tokens"
                  | some incrementor_tokens =>
                    match parse_expression_go fuel incrementor_tokens previous_expression_with_initializer local_params with
                    | .error e => .error e
                    | .ok incr0 =>
                      let incrementor := retype_number incr0 "i32"
                      match between_next rest Token.LeftBracket Token.RightBracket with
                      | none => .error "Couldn't find body tokens"
                      | some body_tokens =>
                        match parse_for_body fuel
                            (split_by_semicolon_within_brackets body_tokens)
                            previous_expression_with_initializer local_params with
                        | .error e => .error e
                        | .ok body => .ok (.ForStatement initializer incrementor conditional body)
        | t => .error (error_with_info ("Failed parsing expression, got unexpected token " ++ token_display t) fqt)

/-- The argument loop of `parse_params` (expressions.rs), applied to the
comma-separated chunks of the tokens before the closing `RightParen`: every
chunk that was terminated by a comma is parsed unconditionally (an empty one
fails inside `parse_expression` with its run-out-of-tokens error, as in the
source), while the final chunk is parsed only when non-empty. -/
def parse_params_chunks :
    Nat → List (List FullyQualifiedToken) → List Expression → List Param → Except String (List Expression)
  | 0, _, _, _ => .error "Internal: recursion fuel exhausted"
  | _ + 1, [], _, _ => .ok []
  | fuel + 1, [chunk], previous_expressions, local_params =>
    if chunk.isEmpty then .ok []
    else
      match parse_expression_go fuel chunk previous_expressions local_params with
      | .error e => .error e
      | .ok exp => .ok [exp]
  | fuel + 1, chunk :: chunk2 :: chunks, previous_expressions, local_params =>
    match parse_expression_go fuel chunk previous_expressions local_params with
    | .error e => .error e
    | .ok exp =>
      match parse_params_chunks fuel (chunk2 :: chunks) previous_expressions local_params with
      | .error e => .error e
      | .ok exps => .ok (exp :: exps)

/-- The `for`-body loop of `parse_expression` (expressions.rs): each
semicolon-delimited group is parsed in order, empty groups are skipped, and
the first error aborts. -/
def parse_for_body :
    Nat → List (List FullyQualifiedToken) → List Expression → List Param → Except String (List Expression)
  | 0, _, _, _ => .error "Internal: recursion fuel exhausted"
  | _ + 1, [], _, _ => .ok []
  | fuel + 1, group :: groups, previous_expressions, local_params =>
    if group.isEmpty then parse_for_body fuel groups previous_expressions local_params
    else
      match parse_expression_go fuel group previous_expressions local_params with
      | .error e => .error e
      | .ok exp =>
        match parse_for_body fuel groups previous_expressions local_params with
        | .error e => .error e
        | .ok exps => .ok (exp :: exps)

end

/-- The expression parser entry point (expressions.rs, `parse_expression`),
with enough fuel for the given tokens (every recursive call of the source
function strictly shrinks the slice being parsed, so depth is bounded by the
token count). -/
def parse_expression (tokens : List FullyQualifiedToken)
    (previous_expressions : List Expression) (local_params : List Param) : Except String Expression :=
  parse_expression_go (tokens.length + 1) tokens previous_expressions local_params

/-- A parsed function (blocks.rs, `Function`). -/
structure Function where
  name : String
  expressions : List Expression
  params : List Param
  return_type : String

/-- An export declaration (blocks.rs, `Export`). -/
structure Export where
  external_name : String
  function_name : String

/-- An imported function (blocks.rs, `ImportFunction`). -/
structure ImportFunction where
  name : String
  params : List Param
  external_name : List String

/-- An imported memory (blocks.rs, `ImportMemory`). -/
structure ImportMemory where
  size : Int
  external_name : List String

/-- A top-level block (blocks.rs, `Block`). -/
inductive Block where
  | FunctionBlock (function : Function)
  | ExportBlock (export_block : Export)
  | ImportFunctionBlock (import_function : ImportFunction)
  | ImportMemoryBlock (import_memory : ImportMemory)

/-- A parsed program (parser.rs, `Program`). -/
structure Program where
  blocks : List Block

/-- The signature parameter parser (blocks.rs, `parse_params`): `acc` is the
`param_name` option, `entry` the opening-paren token used for the
missing-type diagnostic. Returns the parameters together with the tokens
remaining after the closing `RightParen`, since the Rust caller keeps
consuming the same iterator. -/
def parse_params (ts : List FullyQualifiedToken) (acc : Option String)
    (entry : FullyQualifiedToken) : Except String (List Param × List FullyQualifiedToken) :=
  match ts with
  | [] => .error "Failed parsing params"
  | fqt :: rest =>
    match fqt.token with
    | .RightParen =>
      match acc with
      | some name => .error (error_with_info ("Failed to find type for param " ++ name) entry)
      | none => .ok ([], rest)
    | .Identifier body =>
      match acc with
      | some name =>
        (parse_params rest none entry).map fun pr => (⟨name, body⟩ :: pr.1, pr.2)
      | none => parse_params rest (some body) entry
    | .Comma => parse_params rest none entry
    | .Colon => parse_params rest acc entry
    | t => .error ("Failed parsing params, got unexpected token " ++ token_display t)

/-- The statement loop at the end of `parse_function` (blocks.rs): parse each
non-empty statement group in order, aborting on the first error.
Modelled from the spec: the snapshot's blocks.rs predates the three-argument
`parse_expression` of expressions.rs and passes no context; following the
spec (§4.1), each statement is parsed with the accumulated list of
previously parsed statements of the same function and the function's
parameter list. -/
def parse_statements (groups : List (List FullyQualifiedToken)) (acc : List Expression)
    (params : List Param) : Except String (List Expression) :=
  match groups with
  | [] => .ok acc
  | group :: rest =>
    if group.isEmpty then parse_statements rest acc params
    else
      match parse_expression group acc params with
      | .error e => .error e
      | .ok exp => parse_statements rest (acc ++ [exp]) params

/-- The function-block parser (blocks.rs, `parse_function`). The signature
part (name, parameters, return type, opening bracket) follows blocks.rs
exactly, including which diagnostics carry the position of which token.
Modelled from the spec: the body statement groups are produced with the
bracket-depth-aware splitter `split_by_semicolon_within_brackets` (spec §6;
the snapshot's blocks.rs still splits on every semicolon, which its own
for-loop generator test contradicts), after dropping the final `}` token. -/
def parse_function (tokens : List FullyQualifiedToken) : Except String Function :=
  match tokens with
  | [] => .error "Expected a function name but got nothing"
  | fn_token :: rest =>
    match rest with
    | [] => .error (error_with_info "Expected a function name but got nothing" fn_token)
    | nameTok :: rest2 =>
      match nameTok.token with
      | .Identifier function_name =>
        match rest2 with
        | [] => .error "Expected parens but got nothing"
        | parenTok :: rest3 =>
          match parenTok.token with
          | .LeftParen =>
            match parse_params rest3 none parenTok with
            | .error e => .error e
            | .ok (params, rest4) =>
              match rest4 with
              | [] => .error "Expected colon but got nothing"
              | colonTok :: rest5 =>
                match colonTok.token with
                | .Colon =>
                  match rest5 with
                  | [] => .error "Expected return type name, but got nothing"
                  | retTok :: rest6 =>
                    match retTok.token with
                    | .Identifier return_type =>
                      match rest6 with
                      | [] => .error "Expected \x7b but got nothing"
                      | brTok :: rest7 =>
                        match brTok.token with
                        | .LeftBracket =>
                          match parse_statements
                              (split_by_semicolon_within_brackets rest7.dropLast) [] params with
                          | .error e => .error e
                          | .ok expressions => .ok ⟨function_name, expressions, params, return_type⟩
                        | t => .error (error_with_info ("Expected \x7b but got " ++ token_display t) brTok)
                    | t => .error (error_with_info ("Expected return type name, but got " ++ token_display t) retTok)
                | t => .error (error_with_info ("Failed parsing function signature - expected return type, got " ++ token_display t) colonTok)
          | t => .error (error_with_info ("Expected parens but got " ++ token_display t) parenTok)
      | t => .error (error_with_info ("Expected a function name but got " ++ token_display t) fn_token)

/-- The export-block parser (blocks.rs, `parse_export`). -/
def parse_export (tokens : List FullyQualifiedToken) : Except String Export :=
  match tokens.tail with
  | [] => .error "Expected external name in export"
  | extTok :: rest2 =>
    match extTok.token with
    | .Identifier external_name =>
      match rest2 with
      | [] => .error "Expected function name in export"
      | fnTok :: _ =>
        match fnTok.token with
        | .Identifier function_name => .ok ⟨external_name, function_name⟩
        | t => .error (error_with_info ("Expected function name in export, got " ++ token_display t) fnTok)
    | t => .error (error_with_info ("Expected external name in export, got " ++ token_display t) extTok)

/-- The dotted-external-path loop shared by the import parsers (blocks.rs):
identifiers are collected, dots skipped, anything else is an error. -/
def collect_external_name : List FullyQualifiedToken → Except String (List String)
  | [] => .ok []
  | fqt :: rest =>
    match fqt.token with
    | .Identifier body => (collect_external_name rest).map (body :: ·)
    | .Dot => collect_external_name rest
    | t => .error (error_with_info ("Expected dot or identifier, got " ++ token_display t) fqt)

/-- The import-function parser (blocks.rs, `parse_import_function`); the
leading `import fn` tokens are skipped, as in the source. The source's
missing-name message really says "export" (blocks.rs line 287). -/
def parse_import_function (tokens : List FullyQualifiedToken) : Except String ImportFunction :=
  match tokens.drop 2 with
  | [] => .error "Expected function name in export"
  | nameTok :: rest2 =>
    match nameTok.token with
    | .Identifier name =>
      match rest2 with
      | [] => .error "Expected parens but got nothing"
      | parenTok :: rest3 =>
        match parenTok.token with
        | .LeftParen =>
          match parse_params rest3 none parenTok with
          | .error e => .error e
          | .ok (params, rest4) =>
            (collect_external_name rest4).map fun external_name => ⟨name, params, external_name⟩
        | t => .error (error_with_info ("Expected parens but got " ++ token_display t) parenTok)
    | t => .error (error_with_info ("Expected function name in import, got " ++ token_display t) nameTok)

/-- Models `str::parse::<i32>` for the digit-only number bodies the tokenizer
produces, with the `ParseIntError` display strings used by Rust. -/
def parse_i32 (s : String) : Except String Int :=
  if s.isEmpty then .error "cannot parse integer from empty string"
  else if !(s.toList.all Char.isDigit) then .error "invalid digit found in string"
  else
    let n : Nat := s.toList.foldl (fun acc c => acc * 10 + (c.toNat - 48)) 0
    if n > 2147483647 then .error "number too large to fit in target type"
    else .ok (n : Int)

/-- The import-memory parser (blocks.rs, `parse_import_memory`); the leading
`import memory` tokens are skipped, as in the source. -/
def parse_import_memory (tokens : List FullyQualifiedToken) : Except String ImportMemory :=
  match tokens.drop 2 with
  | [] => .error "Expected memory size but got nothing"
  | sizeTok :: rest2 =>
    match sizeTok.token with
    | .Number body =>
      match parse_i32 body with
      | .error e => .error e
      | .ok size => (collect_external_name rest2).map fun external_name => ⟨size, external_name⟩
    | t => .error (error_with_info ("Unexpected token " ++ token_display t ++ " in import") sizeTok)

/-- The block dispatcher (blocks.rs, `parse_block`), including the source's
"Unrecoginzed block" typo. -/
def parse_block (body : String) : Except String Block :=
  let tokens := tokenize body
  match tokens with
  | ⟨.Fn, _⟩ :: _ => (parse_function tokens).map .FunctionBlock
  | ⟨.Export, _⟩ :: _ => (parse_export tokens).map .ExportBlock
  | ⟨.Import, _⟩ :: _ =>
    match tokens.drop 1 with
    | ⟨.Fn, _⟩ :: _ => (parse_import_function tokens).map .ImportFunctionBlock
    | ⟨.Memory, _⟩ :: _ => (parse_import_memory tokens).map .ImportMemoryBlock
    | _ => .error "Unexpected token in import statement"
  | _ => .error "Unrecoginzed block"

/-- Splits a character list at every occurrence of `sep`, keeping empty
pieces; used to model `str::split` for single-character separators. -/
def split_on_char (sep : Char) : List Char → List (List Char)
  | [] => [[]]
  | c :: cs =>
    if c == sep then [] :: split_on_char sep cs
    else
      match split_on_char sep cs with
      | g :: gs => (c :: g) :: gs
      | [] => [[c]]

/-- Whether a line is all whitespace; `line.trim().len() > 0` in blocks.rs is
exactly the negation of this. -/
def is_blank_line (line : String) : Bool :=
  line.toList.all Char.isWhitespace

/-- Models `str::starts_with` on character lists. -/
def starts_with (s pre : String) : Bool :=
  List.isPrefixOf pre.toList s.toList

/-- The line loop of `into_blocks` (blocks.rs): non-blank lines accumulate
into the current block, and a line that starts with `export` or `import`, or
equals `}`, closes the block. -/
def into_blocks_go : List String → List String → List (List String)
  | [], cur => if cur.isEmpty then [] else [cur]
  | line :: rest, cur =>
    if !(is_blank_line line) then
      let curN := cur ++ [line]
      if starts_with line "export" || starts_with line "import" || line == "\x7d" then
        curN :: into_blocks_go rest []
      else into_blocks_go rest curN
    else into_blocks_go rest cur

/-- Splits a source file into top-level block strings (blocks.rs,
`into_blocks`); lines are the `"\n"`-separated pieces of the body and each
block is re-joined with newlines, as in the source. -/
def into_blocks (body : String) : List String :=
  (into_blocks_go ((split_on_char '\n' body.toList).map String.mk) []).map
    (String.intercalate "\n")

/-- The result-collection loop of `parse` (parser.rs): successful blocks and
error messages are pushed in block order, and at the end the errors, if any,
are joined with newlines into a single error. -/
def collect_blocks (results : List (Except String Block)) (blocks : List Block)
    (errors : List String) : Except String Program :=
  match results with
  | [] =>
    if errors.length > 0 then .error (String.intercalate "\n" errors)
    else .ok ⟨blocks⟩
  | r :: rest =>
    match r with
    | .ok b => collect_blocks rest (blocks ++ [b]) errors
    | .error e => collect_blocks rest blocks (errors ++ [e])

/-- The top-level parser (parser.rs, `parse`). -/
def parse (body : String) : Except String Program :=
  let unparsed_blocks := into_blocks body
  if unparsed_blocks.length = 0 then .ok ⟨[]⟩
  else collect_blocks (unparsed_blocks.map parse_block) [] []

/-- Two-space indentation of every non-empty line (web_assembly.rs,
`indent`): the input is split on newlines, each non-empty line gets a two
space prefix and a trailing newline, empty lines are dropped entirely (they
are mapped to the empty string with no newline), and the pieces are
concatenated. -/
def indent (body : String) : String :=
  String.join (((split_on_char '\n' body.toList).map String.mk).map
    fun line => if line.isEmpty then "" else "  " ++ line ++ "\n")

mutual

/-- The per-expression WAT instruction emitter (web_assembly.rs,
`generate_expression`), reproducing the source's format strings exactly
(including the literal blank line inside the `for` template and the leading
newline a zero-argument call gets from joining an empty argument list). An
addition always emits `f32.add`; a boolean emits `(i32.const 0)` for `true`
and `(i32.const 1)` for `false`; a `for` whose initializer is not a
`LocalAssign` yields the empty string, as in the source. -/
def generate_expression : Expression → String
  | .Addition left right =>
    "(f32.add " ++ generate_expression left ++ " " ++ generate_expression right ++ ")"
  | .GlobalAssign name _ expression =>
    "(global.set $" ++ name ++ " " ++ generate_expression expression ++ ")"
  | .LocalAssign name _ expression =>
    "(local.set $" ++ name ++ " " ++ generate_expression expression ++ ")"
  | .Number value type_name => "(" ++ type_name ++ ".const " ++ value ++ ")"
  | .Return expression => generate_expression expression
  | .Variable body _ => "(local.get $" ++ body ++ ")"
  | .String body => "\"" ++ body ++ "\""
  | .FunctionCall name args =>
    String.intercalate "\n" (generate_expression_list args) ++ "\n(call $" ++ name ++ ")"
  | .MemoryReference offset length =>
    "(i32.const " ++ toString offset ++ ")\n(i32.const " ++ toString length ++ ")"
  | .IfStatement predicate success fail =>
    "(if\n  " ++ generate_expression predicate ++ "\n  (then\n"
      ++ indent (indent (generate_expression success)) ++ "\n  )\n  (else\n"
      ++ indent (indent (generate_expression fail)) ++ "\n  )\n)"
  | .Boolean value => if value then "(i32.const 0)" else "(i32.const 1)"
  | .ForStatement initial_value incrementor break_condition body =>
    match initial_value with
    | .LocalAssign variable_name type_name expression =>
      generate_expression (.LocalAssign variable_name type_name expression)
        ++ "\n(loop $loop\n"
        ++ indent (String.intercalate "\n" (generate_expression_list body))
        ++ "\n  (local.get $" ++ variable_name ++ ")\n  "
        ++ generate_expression incrementor
        ++ "\n  (" ++ type_name ++ ".add)\n  (local.set $" ++ variable_name ++ ")\n\n  (local.get $"
        ++ variable_name ++ ")\n  "
        ++ generate_expression break_condition
        ++ "\n  (" ++ type_name ++ ".lt_s)\n  (br_if $loop)\n)"
    | _ => ""

/-- Emission of a list of expressions, one string each (the `iter().map`
over arguments and loop bodies in web_assembly.rs). -/
def generate_expression_list : List Expression → List String
  | [] => []
  | e :: es => generate_expression e :: generate_expression_list es

end

/-- The statement scan of `extract_strings` (web_assembly.rs): `offset` is
the running byte offset, the first component collects the
`(offset, literal)` data segments in statement order, the second the
rewritten statement list. A string-typed `LocalAssign` whose right-hand side
is a `String` literal allocates `body.len()` bytes and becomes
`MemoryReference offset length`; one whose right-hand side is anything else
allocates length 0 (the right-hand side is dropped); every other statement
is kept as is. -/
def extract_strings_go : List Expression → Int → List (Int × String) × List Expression
  | [], _ => ([], [])
  | e :: rest, offset =>
    match e with
    | .LocalAssign name type_name expression =>
      if type_name == "string" then
        match expression with
        | .String body =>
          let length : Int := (body.utf8ByteSize : Int)
          let result := extract_strings_go rest (offset + length)
          ((offset, body) :: result.1, .MemoryReference offset length :: result.2)
        | _ =>
          let result := extract_strings_go rest offset
          (result.1, .MemoryReference offset 0 :: result.2)
      else
        let result := extract_strings_go rest offset
        (result.1, .LocalAssign name type_name expression :: result.2)
    | _ =>
      let result := extract_strings_go rest offset
      (result.1, e :: result.2)

/-- The string-extraction pass (web_assembly.rs, `extract_strings`):
rewrites a function's statement list and renders the collected `(data …)`
segments (joined with newlines, plus a trailing newline), or `none` when no
string literal was collected. -/
def extract_strings (expressions : List Expression) : Option String × List Expression :=
  let result := extract_strings_go expressions 0
  let output :=
    if result.1.isEmpty then none
    else some (String.intercalate "\n" (result.1.map
      fun p => "(data (i32.const " ++ toString p.1 ++ ") \"" ++ p.2 ++ "\")") ++ "\n")
  (output, result.2)

/-- Specification-side bracket matcher: a token list has balanced `{`/`}`
brackets when the matched depth never goes negative and ends at zero. A
token group that holds one complete statement including its nested blocks
necessarily satisfies this. -/
def brackets_balanced_go : List FullyQualifiedToken → Int → Bool
  | [], depth => depth == 0
  | fqt :: rest, depth =>
    match fqt.token with
    | .LeftBracket => brackets_balanced_go rest (depth + 1)
    | .RightBracket => if depth ≤ 0 then false else brackets_balanced_go rest (depth - 1)
    | _ => brackets_balanced_go rest depth

/-- Whether a token group's brackets are balanced (specification-side). -/
def brackets_balanced (tokens : List FullyQualifiedToken) : Bool :=
  brackets_balanced_go tokens 0

/-- Specification-side formulation of the type resolver, written with the
library searches, to be compared with `find_type`: the first parameter whose
name matches, otherwise the declared type of the first prior `LocalAssign`
whose name matches, otherwise an error. -/
def find_type_spec (variable_name : String) (previous_expressions : List Expression)
    (local_params : List Param) : Except String String :=
  match local_params.find? (fun p => p.name == variable_name) with
  | some p => .ok p.type_name
  | none =>
    match previous_expressions.findSome? (fun e =>
        match e with
        | .LocalAssign name type_name _ => if name == variable_name then some type_name else none
        | _ => none) with
    | some type_name => .ok type_name
    | none => .error ("Couldn't find type for variable " ++ variable_name)

/-- Specification-side: the string literals bound by string-typed local
assignments, in statement order. -/
def string_literals_spec : List Expression → List String
  | [] => []
  | .LocalAssign _ type_name (.String body) :: rest =>
    if type_name == "string" then body :: string_literals_spec rest
    else string_literals_spec rest
  | _ :: rest => string_literals_spec rest

/-- Specification-side: pairs each string with a byte offset, starting at
the given offset and advancing by each string's byte length — the claimed
monotone running-offset layout. -/
def with_offsets_spec : Int → List String → List (Int × String)
  | _, [] => []
  | offset, s :: rest => (offset, s) :: with_offsets_spec (offset + (s.utf8ByteSize : Int)) rest

/-- Whether an expression is a `String` literal (specification-side). -/
def is_string_literal : Expression → Bool
  | .String _ => true
  | _ => false

/-- The error of a block parse result, if any (specification-side). -/
def err_of : Except String Block → Option String
  | .error e => some e
  | .ok _ => none

/-- The block of a successful block parse result, if any (specification-side). -/
def ok_of : Except String Block → Option Block
  | .ok b => some b
  | .error _ => none

/-- A token with a dummy source position, for concrete inputs whose claims do
not concern positions. -/
def fq (t : Token) : FullyQualifiedToken :=
  ⟨t, ⟨0, 0⟩⟩

/-- A function body holding exactly one statement with doubly nested `{ }`
blocks: a `for` loop whose body is another `for` loop. -/
def c1_nested_body : String :=
  "for (local x: i32 = 0, 10, 1) \x7b for (local y: i32 = 0, 10, 1) \x7b log(y); \x7d; \x7d;"

/-- The header tokens of a singly nested `for` statement (no brackets or
semicolons of their own). -/
def c1_header_tokens : List FullyQualifiedToken :=
  tokenize "for (local x: i32 = 0, 10, 1)"

/-- The body tokens of that `for` statement: a call plus its terminating
semicolon, with no closing bracket of their own. -/
def c1_inner_tokens : List FullyQualifiedToken :=
  tokenize "log(x);"

/-- At bracket depth 0, tokens that are not brackets or semicolons are simply
moved into the current group. -/
theorem split_go_skip_zero (a : List FullyQualifiedToken) :
    ∀ (ts cur : List FullyQualifiedToken),
    (∀ x ∈ a, x.token ≠ Token.LeftBracket ∧ x.token ≠ Token.RightBracket ∧ x.token ≠ Token.Semicolon) →
    split_by_semicolon_go (a ++ ts) cur 0 = split_by_semicolon_go ts (cur ++ a) 0 := by
  induction a with
  | nil => intro ts cur _; simp
  | cons x a ih =>
    intro ts cur ha
    obtain ⟨h1, h2, h3⟩ := ha x (List.mem_cons_self x a)
    have step : split_by_semicolon_go ((x :: a) ++ ts) cur 0
        = split_by_semicolon_go (a ++ ts) (cur ++ [x]) 0 := by
      cases htok : x.token <;> simp [split_by_semicolon_go, htok] at h1 h2 h3 ⊢
    rw [step, ih ts (cur ++ [x]) (fun y hy => ha y (List.mem_cons_of_mem x hy))]
    simp [List.append_assoc]

/-- At bracket depth 1, every token except a closing bracket is simply moved
into the current group — including semicolons and further opening brackets
(the depth is not raised past 1). -/
theorem split_go_skip_one (b : List FullyQualifiedToken) :
    ∀ (ts cur : List FullyQualifiedToken),
    (∀ x ∈ b, x.token ≠ Token.RightBracket) →
    split_by_semicolon_go (b ++ ts) cur 1 = split_by_semicolon_go ts (cur ++ b) 1 := by
  induction b with
  | nil => intro ts cur _; simp
  | cons x b ih =>
    intro ts cur hb
    have h1 := hb x (List.mem_cons_self x b)
    have step : split_by_semicolon_go ((x :: b) ++ ts) cur 1
        = split_by_semicolon_go (b ++ ts) (cur ++ [x]) 1 := by
      cases htok : x.token <;> simp [split_by_semicolon_go, htok] at h1 ⊢
    rw [step, ih ts (cur ++ [x]) (fun y hy => hb y (List.mem_cons_of_mem x hy))]
    simp [List.append_assoc]

/-- C1 (amended): statement-group splitting protects exactly one level of
nesting. For a statement made of a bracket-free header, one `{ … }` window
whose inner tokens contain no closing bracket (they may contain semicolons
and opening brackets), and a terminating semicolon, the group handed on is
the complete statement including the window: the semicolons inside the
window do not terminate it. (Deeper nesting is not protected, see the
counterexample.) -/
theorem c1_single_level_bracket_awareness
    (a : List FullyQualifiedToken) (l : FullyQualifiedToken) (b : List FullyQualifiedToken)
    (r s : FullyQualifiedToken) (c : List FullyQualifiedToken)
    (ha : ∀ x ∈ a, x.token ≠ Token.LeftBracket ∧ x.token ≠ Token.RightBracket ∧ x.token ≠ Token.Semicolon)
    (hl : l.token = Token.LeftBracket)
    (hb : ∀ x ∈ b, x.token ≠ Token.RightBracket)
    (hr : r.token = Token.RightBracket)
    (hs : s.token = Token.Semicolon) :
    split_by_semicolon_within_brackets (a ++ [l] ++ b ++ [r, s] ++ c)
      = (a ++ [l] ++ b ++ [r]) :: split_by_semicolon_within_brackets c := by
  unfold split_by_semicolon_within_brackets
  have h0 : a ++ [l] ++ b ++ [r, s] ++ c = a ++ (l :: (b ++ (r :: s :: c))) := by simp
  rw [h0, split_go_skip_zero a (l :: (b ++ (r :: s :: c))) [] ha]
  have h1 : split_by_semicolon_go (l :: (b ++ (r :: s :: c))) ([] ++ a) 0
      = split_by_semicolon_go (b ++ (r :: s :: c)) (a ++ [l]) 1 := by
    simp [split_by_semicolon_go, hl]
  rw [h1, split_go_skip_one b (r :: s :: c) (a ++ [l]) hb]
  have h2 : split_by_semicolon_go (r :: s :: c) (a ++ [l] ++ b) 1
      = split_by_semicolon_go (s :: c) (a ++ [l] ++ b ++ [r]) 0 := by
    simp [split_by_semicolon_go, hr, List.append_assoc]
  have h3 : split_by_semicolon_go (s :: c) (a ++ [l] ++ b ++ [r]) 0
      = (a ++ [l] ++ b ++ [r]) :: split_by_semicolon_go c [] 0 := by
    simp [split_by_semicolon_go, hs]
  simp only [List.append_assoc] at h2 h3 ⊢
  rw [h2, h3]

/-- C1 witness: the body `for (local x: i32 = 0, 10, 1) { log(x); };` is kept
as one complete group — the semicolon inside the singly nested `for` body
does not split it. -/
theorem c1_witness :
    split_by_semicolon_within_brackets
        (c1_header_tokens ++ [fq Token.LeftBracket] ++ c1_inner_tokens
          ++ [fq Token.RightBracket, fq Token.Semicolon] ++ [])
      = [c1_header_tokens ++ [fq Token.LeftBracket] ++ c1_inner_tokens ++ [fq Token.RightBracket]] := by
  have h := c1_single_level_bracket_awareness c1_header_tokens (fq Token.LeftBracket)
    c1_inner_tokens (fq Token.RightBracket) (fq Token.Semicolon) []
    (by decide) rfl (by decide) rfl rfl
  simpa [split_by_semicolon_within_brackets, split_by_semicolon_go] using h

/-- C1 counterexample: on a function body holding exactly one statement with
doubly nested `{ }` blocks (a `for` inside a `for`), the splitter cuts the
statement at a semicolon that lies inside the outer `{ }` window: it
produces two groups, neither of which has balanced brackets, instead of the
single complete statement group (the body minus its trailing semicolon). -/
theorem c1_counterexample :
    (split_by_semicolon_within_brackets (tokenize c1_nested_body)).map brackets_balanced
        = [false, false]
    ∧ split_by_semicolon_within_brackets (tokenize c1_nested_body)
        ≠ [(tokenize c1_nested_body).dropLast] := by
  constructor
  · decide
  · decide

/-- C2 (amended): when an assignment's right-hand side parses to a bare
`Number` literal, a `local` assignment rewrites the literal's `type_name` to
the declared type, but a `global` assignment does not — the literal keeps
the type it parsed with (the `f32` default). -/
theorem c2_assignment_number_retype :
    (∀ (fuel : Nat) (previous_expressions : List Expression) (local_params : List Param)
      (t1 t2 t3 t4 t5 : FullyQualifiedToken) (name type_name value tn : String)
      (rest : List FullyQualifiedToken),
      t1.token = Token.Local → t2.token = Token.Identifier name → t3.token = Token.Colon →
      t4.token = Token.Identifier type_name → t5.token = Token.Assign →
      parse_expression_go fuel rest previous_expressions local_params = .ok (.Number value tn) →
      parse_expression_go (fuel + 1) (t1 :: t2 :: t3 :: t4 :: t5 :: rest)
          previous_expressions local_params
        = .ok (.LocalAssign name type_name (.Number value type_name)))
    ∧ (∀ (fuel : Nat) (previous_expressions : List Expression) (local_params : List Param)
      (t1 t2 t3 t4 t5 : FullyQualifiedToken) (name type_name value tn : String)
      (rest : List FullyQualifiedToken),
      t1.token = Token.Global → t2.token = Token.Identifier name → t3.token = Token.Colon →
      t4.token = Token.Identifier type_name → t5.token = Token.Assign →
      parse_expression_go fuel rest previous_expressions local_params = .ok (.Number value tn) →
      parse_expression_go (fuel + 1) (t1 :: t2 :: t3 :: t4 :: t5 :: rest)
          previous_expressions local_params
        = .ok (.GlobalAssign name type_name (.Number value tn))) := by
  constructor
  · intro fuel p lp t1 t2 t3 t4 t5 name type_name value tn rest h1 h2 h3 h4 h5 hrest
    simp [parse_expression_go, h1, h2, h3, h4, h5, hrest, retype_number, Except.map]
  · intro fuel p lp t1 t2 t3 t4 t5 name type_name value tn rest h1 h2 h3 h4 h5 hrest
    simp [parse_expression_go, h1, h2, h3, h4, h5, hrest, Except.map]

/-- C2 witness: `local n: i32 = 5` parses to a `LocalAssign` whose inner
`Number` has been rewritten to the declared type `i32`. -/
theorem c2_witness :
    parse_expression_go 6 (tokenize "local n: i32 = 5") [] []
      = .ok (.LocalAssign "n" "i32" (.Number "5" "i32")) := by
  have h := c2_assignment_number_retype.1 5 [] []
    ⟨Token.Local, ⟨0, 5⟩⟩ ⟨Token.Identifier "n", ⟨0, 7⟩⟩ ⟨Token.Colon, ⟨0, 8⟩⟩
    ⟨Token.Identifier "i32", ⟨0, 13⟩⟩ ⟨Token.Assign, ⟨0, 14⟩⟩
    "n" "i32" "5" "f32" [⟨Token.Number "5", ⟨0, 16⟩⟩]
    rfl rfl rfl rfl rfl rfl
  exact h

/-- C2 counterexample: `global n: i32 = 5` parses to a `GlobalAssign` whose
inner `Number` still carries the default `f32`, not the declared `i32` the
claim asserts. -/
theorem c2_counterexample :
    parse_expression (tokenize "global n: i32 = 5") [] []
        = .ok (.GlobalAssign "n" "i32" (.Number "5" "f32"))
    ∧ ¬ (parse_expression (tokenize "global n: i32 = 5") [] []
        = .ok (.GlobalAssign "n" "i32" (.Number "5" "i32"))) := by
  constructor
  · rfl
  · intro h
    have h0 : parse_expression (tokenize "global n: i32 = 5") [] []
        = .ok (.GlobalAssign "n" "i32" (.Number "5" "f32")) := rfl
    have hAB := Except.ok.inj (h0.symm.trans h)
    injection hAB with _ _ hexp
    injection hexp with _ htn
    exact absurd htn (by decide)

/-- C6: when the token slice contains a `+` and no `=`, the parser splits at
the first `+`, parses both halves recursively, and wraps them as `Addition`
(propagating a failing half's error); consequently `1 + 2 + 3` parses to the
right-nested shape `Addition(1, Addition(2, 3))`. -/
theorem c6_addition_first_plus_split :
    (∀ (fuel : Nat) (tokens : List FullyQualifiedToken)
      (previous_expressions : List Expression) (local_params : List Param),
      (tokens.any fun fqt => fqt.token == Token.Plus) = true →
      (tokens.any fun fqt => fqt.token == Token.Assign) = false →
      parse_expression_go (fuel + 1) tokens previous_expressions local_params
        = match parse_expression_go fuel (tokens.takeWhile fun fqt => !(fqt.token == Token.Plus))
              previous_expressions local_params with
          | .error e => .error e
          | .ok left =>
            match parse_expression_go fuel
                ((tokens.dropWhile fun fqt => !(fqt.token == Token.Plus)).tail)
                previous_expressions local_params with
            | .error e => .error e
            | .ok right => .ok (.Addition left right))
    ∧ parse_expression (tokenize "1 + 2 + 3") [] []
        = .ok (.Addition (.Number "1" "f32")
            (.Addition (.Number "2" "f32") (.Number "3" "f32"))) := by
  constructor
  · intro fuel tokens p lp h1 h2
    simp [parse_expression_go, h1, h2]
  · rfl

/-- C6 witness: the split equation applied to the tokens of `1 + 2 + 3`. -/
theorem c6_witness :
    parse_expression_go 5 (tokenize "1 + 2 + 3") [] []
      = match parse_expression_go 4 ((tokenize "1 + 2 + 3").takeWhile
            fun fqt => !(fqt.token == Token.Plus)) [] [] with
        | .error e => .error e
        | .ok left =>
          match parse_expression_go 4 (((tokenize "1 + 2 + 3").dropWhile
              fun fqt => !(fqt.token == Token.Plus)).tail) [] [] with
          | .error e => .error e
          | .ok right => .ok (.Addition left right) := by
  exact c6_addition_first_plus_split.1 4 (tokenize "1 + 2 + 3") [] [] (by decide) (by decide)

/-- The parameter loop of the resolver is the first name match of the
parameter list. -/
theorem find_param_type_eq_find (variable_name : String) (params : List Param) :
    find_param_type variable_name params
      = (params.find? fun p => p.name == variable_name).map Param.type_name := by
  induction params with
  | nil => simp [find_param_type]
  | cons p rest ih =>
    by_cases h : p.name = variable_name <;>
      simp [find_param_type, List.find?_cons, h, ih]

/-- The prior-statement loop of the resolver is the first `LocalAssign` name
match of the statement list. -/
theorem find_local_type_eq_findSome (variable_name : String) (exprs : List Expression) :
    find_local_type variable_name exprs
      = exprs.findSome? (fun e =>
          match e with
          | .LocalAssign name type_name _ =>
            if name == variable_name then some type_name else none
          | _ => none) := by
  induction exprs with
  | nil => simp [find_local_type]
  | cons e rest ih =>
    cases e <;> simp [find_local_type, List.findSome?_cons, ih]
    case LocalAssign name type_name inner =>
      by_cases h : name = variable_name <;> simp [h, find_local_type, ih]

/-- C5: the type resolver returns the type of the first parameter whose name
matches, otherwise the declared type of the first prior `LocalAssign` (in
list order) whose name matches, otherwise an error; in particular a name
declared both as a parameter and as a prior local with different types
resolves to the parameter's type. -/
theorem c5_find_type_search_order :
    (∀ (variable_name : String) (previous_expressions : List Expression)
      (local_params : List Param),
      find_type variable_name previous_expressions local_params
        = find_type_spec variable_name previous_expressions local_params)
    ∧ find_type "x" [.LocalAssign "x" "i64" (.Number "1" "f32")] [⟨"x", "i32"⟩] = .ok "i32"
    ∧ find_type "x" [.LocalAssign "x" "i64" (.Number "1" "f32"),
        .LocalAssign "x" "f32" (.Number "2" "f32")] [] = .ok "i64"
    ∧ find_type "x" [] [] = .error "Couldn't find type for variable x" := by
  refine ⟨fun v prevs params => ?_, rfl, rfl, rfl⟩
  unfold find_type find_type_spec
  rw [find_param_type_eq_find, find_local_type_eq_findSome]
  cases params.find? fun p => p.name == v <;> simp

/-- The data segments collected by the extraction scan are exactly the
string literals of string-typed local assignments, laid out at the running
byte offsets in statement order. -/
theorem extract_strings_go_segments (exprs : List Expression) :
    ∀ offset : Int, (extract_strings_go exprs offset).1
      = with_offsets_spec offset (string_literals_spec exprs) := by
  induction exprs with
  | nil => intro off; simp [extract_strings_go, string_literals_spec, with_offsets_spec]
  | cons e rest ih =>
    intro off
    cases e <;> simp [extract_strings_go, string_literals_spec, ih]
    case LocalAssign name type_name inner =>
      by_cases htn : type_name = "string" <;>
        cases inner <;>
          simp [extract_strings_go, string_literals_spec, with_offsets_spec, htn, ih]

/-- C3: the string-extraction pass allocates byte ranges at a running offset
starting at 0 in statement order (each segment's offset is the sum of the
byte lengths of the literals before it, so the layout is monotone and never
reclaimed); concretely, `"Hi"` then `"World"` produce data segments at
offset 0 (length 2) and offset 2 (length 5), in that order, and the
rewritten statement list carries `MemoryReference` nodes in their place. -/
theorem c3_string_memory_layout :
    (∀ exprs : List Expression, (extract_strings_go exprs 0).1
      = with_offsets_spec 0 (string_literals_spec exprs))
    ∧ extract_strings
        [.LocalAssign "a" "string" (.String "Hi"), .LocalAssign "b" "string" (.String "World")]
      = (some "(data (i32.const 0) \"Hi\")\n(data (i32.const 2) \"World\")\n",
         [.MemoryReference 0 2, .MemoryReference 2 5]) := by
  exact ⟨fun exprs => extract_strings_go_segments exprs 0, rfl⟩

/-- C10: a string-typed `LocalAssign` whose right-hand side is not a
`String` literal is still replaced by `MemoryReference` at the current
running offset with length 0; the offset is not advanced, no data segment is
contributed, and the right-hand side is discarded. -/
theorem c10_string_local_non_literal :
    (∀ (name : String) (e : Expression) (rest : List Expression) (offset : Int),
      is_string_literal e = false →
      extract_strings_go (.LocalAssign name "string" e :: rest) offset
        = ((extract_strings_go rest offset).1,
           .MemoryReference offset 0 :: (extract_strings_go rest offset).2))
    ∧ extract_strings [.LocalAssign "x" "string" (.Number "5" "f32")]
        = (none, [.MemoryReference 0 0]) := by
  constructor
  · intro name e rest offset h
    cases e <;> simp [extract_strings_go, is_string_literal] at h ⊢
  · rfl

/-- C10 witness: the rewrite applied to a string-typed local whose
right-hand side is the literal-free expression `Number "5" "f32"`. -/
theorem c10_witness :
    extract_strings_go [Expression.LocalAssign "x" "string" (.Number "5" "f32")] 0
      = ((extract_strings_go [] 0).1,
         .MemoryReference 0 0 :: (extract_strings_go [] 0).2) := by
  exact c10_string_local_non_literal.1 "x" (.Number "5" "f32") [] 0 rfl

/-- C4: lowering a `ForStatement` whose initializer is a `LocalAssign` emits
the initializer, then `(loop $loop` with the indented body, then the
increment sequence `(local.get $var)` / incrementor / `(type.add)` /
`(local.set $var)`, then the continuation test `(local.get $var)` /
break condition / `(type.lt_s)` / `(br_if $loop)`, in exactly that order;
concretely for `for (local x: i32 = 0, 10, 1) { log(x); }`. -/
theorem c4_for_statement_lowering :
    (∀ (variable_name type_name : String) (expression incrementor break_condition : Expression)
      (body : List Expression),
      generate_expression
          (.ForStatement (.LocalAssign variable_name type_name expression)
            incrementor break_condition body)
        = generate_expression (.LocalAssign variable_name type_name expression)
          ++ "\n(loop $loop\n"
          ++ indent (String.intercalate "\n" (generate_expression_list body))
          ++ "\n  (local.get $" ++ variable_name ++ ")\n  "
          ++ generate_expression incrementor
          ++ "\n  (" ++ type_name ++ ".add)\n  (local.set $" ++ variable_name
          ++ ")\n\n  (local.get $" ++ variable_name ++ ")\n  "
          ++ generate_expression break_condition
          ++ "\n  (" ++ type_name ++ ".lt_s)\n  (br_if $loop)\n)")
    ∧ generate_expression
        (.ForStatement (.LocalAssign "x" "i32" (.Number "0" "i32"))
          (.Number "1" "i32") (.Number "10" "i32")
          [.FunctionCall "log" [.Variable "x" "i32"]])
      = "(local.set $x (i32.const 0))\n(loop $loop\n  (local.get $x)\n  (call $log)\n\n  (local.get $x)\n  (i32.const 1)\n  (i32.add)\n  (local.set $x)\n\n  (local.get $x)\n  (i32.const 10)\n  (i32.lt_s)\n  (br_if $loop)\n)" := by
  exact ⟨fun v t e i bc body => rfl, rfl⟩

/-- C7: the emitter encodes `Boolean true` as `(i32.const 0)` and
`Boolean false` as `(i32.const 1)` — the inverted encoding — and emits
nothing else for a boolean. -/
theorem c7_boolean_encoding (value : Bool) :
    generate_expression (.Boolean value)
      = if value then "(i32.const 0)" else "(i32.const 1)" := rfl

/-- C8: an `Addition` node always emits `(f32.add l r)` around the emissions
of its operands; the mnemonic does not depend on either operand. -/
theorem c8_addition_always_f32 (left right : Expression) :
    generate_expression (.Addition left right)
      = "(f32.add " ++ generate_expression left ++ " " ++ generate_expression right ++ ")" := rfl

/-- The collection loop of the top-level driver, characterized: it fails with
the newline-joined list of all error messages (in result order, after any
already-collected ones) when there is at least one, and otherwise succeeds
with all blocks (after any already-collected ones). -/
theorem collect_blocks_spec (results : List (Except String Block)) :
    ∀ (blocks : List Block) (errors : List String),
    collect_blocks results blocks errors
      = if (errors ++ results.filterMap err_of).length > 0 then
          .error (String.intercalate "\n" (errors ++ results.filterMap err_of))
        else .ok ⟨blocks ++ results.filterMap ok_of⟩ := by
  induction results with
  | nil => intro blocks errors; simp [collect_blocks, err_of, ok_of]
  | cons r rest ih =>
    intro blocks errors
    cases r with
    | ok b => simp [collect_blocks, err_of, ok_of, ih]
    | error e => simp [collect_blocks, err_of, ok_of, ih]

/-- C9: the top-level parse aggregates the failures of all top-level blocks:
whenever two or more blocks fail, the result is a single error equal to all
per-block error messages joined by newlines in block order (none dropped or
masked); when no block fails the result is `Ok` with all blocks, and an `Ok`
result implies no block failed. -/
theorem c9_error_aggregation (body : String) :
    (2 ≤ (((into_blocks body).map parse_block).filterMap err_of).length →
      parse body = .error (String.intercalate "\n"
        (((into_blocks body).map parse_block).filterMap err_of)))
    ∧ (((into_blocks body).map parse_block).filterMap err_of = [] →
      parse body = .ok ⟨((into_blocks body).map parse_block).filterMap ok_of⟩)
    ∧ (∀ pr : Program, parse body = .ok pr →
      ((into_blocks body).map parse_block).filterMap err_of = []) := by
  unfold parse
  by_cases hlen : (into_blocks body).length = 0
  · have hnil : into_blocks body = [] := List.length_eq_zero.mp hlen
    refine ⟨?_, ?_, ?_⟩ <;> simp [hnil, hlen]
  · have hspec := collect_blocks_spec ((into_blocks body).map parse_block) [] []
    simp only [List.nil_append] at hspec
    refine ⟨?_, ?_, ?_⟩
    · intro h2
      have hpos : (((into_blocks body).map parse_block).filterMap err_of).length > 0 := by omega
      simp only [hlen, if_neg, hspec, if_pos hpos]
      simp
    · intro hnone
      have hneg : ¬ (((into_blocks body).map parse_block).filterMap err_of).length > 0 := by
        simp [hnone]
      simp only [hlen, if_neg, hspec, if_neg hneg]
      simp
    · intro pr hok
      by_cases hpos : (((into_blocks body).map parse_block).filterMap err_of).length > 0
      · exfalso
        simp only [hlen, if_neg, hspec, if_pos hpos] at hok
        simp at hok
      · exact List.length_eq_zero.mp (by omega)

/-- C9 witness: a program of two malformed export blocks yields the single
newline-joined error carrying both messages. -/
theorem c9_witness :
    parse "export\nexport"
      = .error "Expected external name in export\nExpected external name in export" := by
  have h := (c9_error_aggregation "export\nexport").1 (by decide)
  exact h.trans (by rw [show String.intercalate "\n"
    (((into_blocks "export\nexport").map parse_block).filterMap err_of)
      = "Expected external name in export\nExpected external name in export" from by decide])
